import Mathlib

/-!
Verification development for the controlflow core: turn strategies
(`orchestration/turn_strategies.py`), history windowing (`llm/history.py`),
and the event / transcript-compilation model (`events/events.py`).

Python dictionaries with insertion order are embedded as association lists;
`datetime` timestamps as naturals; fallible Python code (a `raise`, or an
attribute error) as `Except`.
-/

namespace ControlFlow

/-- Modelled from the spec: the `Agent` class lives outside the three source
files; the spec describes it as "identity (id, name) ... opaque to the core
beyond identity comparison", so it is embedded as an id/name pair with
structural identity comparison. -/
structure Agent where
  id : String
  name : String
deriving DecidableEq, Repr

/-- Modelled from the spec: `Task` is outside the source files and opaque to
the core; only the count of pending tasks per agent is ever consulted. -/
structure Task where
  taskId : Nat
deriving DecidableEq, Repr

/-- The `available_agents: Dict[Agent, List[Task]]` mapping, as an
insertion-ordered association list (Python dict iteration order). -/
abbrev AvailableAgents := List (Agent × List Task)

/-- The keys of the available-agents mapping in iteration order
(`available_agents.keys()`). -/
def keysOf (avail : AvailableAgents) : List Agent :=
  avail.map Prod.fst

/-- The two mutable fields shared by every `TurnStrategy`
(`turn_strategies.py` lines 11-13). -/
structure TurnStrategyState where
  end_turn : Bool := false
  next_agent : Option Agent := none
deriving DecidableEq, Repr

/-- Embeds `TurnStrategy.begin_turn` (lines 27-29). -/
def beginTurn (_st : TurnStrategyState) : TurnStrategyState :=
  { end_turn := false, next_agent := none }

/-- Embeds `TurnStrategy.should_end_turn` (lines 31-38). -/
def shouldEndTurn (st : TurnStrategyState) : Bool :=
  st.end_turn

/-- The body of the `end_turn` tool created by `create_end_turn_tool`
(lines 51-58): sets `end_turn` and returns a confirmation string. -/
def endTurnTool (st : TurnStrategyState) : String × TurnStrategyState :=
  ("Turn ended. Another agent will be selected.", { st with end_turn := true })

/-- Outcome of one invocation of the `delegate_to_agent` tool body: the
too-few-agents early `return`, the `raise ValueError`, or the successful
`return`; each constructor records the string produced, and the success
constructor also records the local `next_agent` that was resolved. -/
inductive DelegateResult where
  | unsupported (msg : String)
  | agentNotFound (msg : String)
  | delegated (target : Agent) (msg : String)
deriving DecidableEq, Repr

/-- The body of the `delegate_to_agent` tool created by `create_delegate_tool`
(`turn_strategies.py` lines 61-78): with at most one available agent it
returns an explanatory string; with an unknown `agent_id` it raises
`ValueError`; otherwise it sets `end_turn = True`, `next_agent` to the first
available agent whose id matches, and returns a confirmation string. -/
def delegateToAgent (st : TurnStrategyState) (avail : AvailableAgents)
    (agent_id : String) : DelegateResult × TurnStrategyState :=
  if avail.length ≤ 1 then
    (.unsupported "Cannot delegate as there are no other available agents.", st)
  else
    match (keysOf avail).find? (fun a => a.id == agent_id) with
    | none =>
        (.agentNotFound ("Agent with ID " ++ agent_id ++ " not found or not available."), st)
    | some a =>
        (.delegated a ("Delegated to agent " ++ a.name ++ " with ID " ++ agent_id),
         { st with end_turn := true, next_agent := some a })

/-- Embeds `Single.get_next_agent` (lines 87-90): always the current agent. The
result is wrapped in `Option` for uniformity with the selectors that can
raise; this one never does. -/
def singleNext (current : Agent) (_avail : AvailableAgents) : Option Agent :=
  some current

/-- Embeds `Popcorn.get_next_agent` (lines 105-110): the delegation target when it
is currently available (a `next_agent` object is always truthy), else the
first key of the mapping; `next(iter(...))` on an empty dict raises
`StopIteration`, embedded as `none`. -/
def popcornNext (next_agent : Option Agent) (_current : Agent)
    (avail : AvailableAgents) : Option Agent :=
  match next_agent with
  | some a => if a ∈ keysOf avail then some a else (keysOf avail).head?
  | none => (keysOf avail).head?

/-- Embeds `Random.get_next_agent` (lines 119-122): `random.choice` over the key
list, embedded as indexing by an arbitrary draw `r` reduced mod the length;
`random.choice` on an empty list raises, embedded as `none`. -/
def randomNext (r : Nat) (_current : Agent) (avail : AvailableAgents) :
    Option Agent :=
  (keysOf avail)[r % (keysOf avail).length]?

/-- Embeds `RoundRobin.get_next_agent` (lines 131-139): first key when the current
agent is absent, otherwise the key after the current agent's first index,
cyclically. -/
def roundRobinNext (current : Agent) (avail : AvailableAgents) :
    Option Agent :=
  let agents := keysOf avail
  if current ∈ agents then
    agents[(agents.indexOf current + 1) % agents.length]?
  else
    agents[0]?

/-- Embeds `MostBusy.get_next_agent` (lines 148-152): Python `max` over the dict
keys with `key=len(tasks)` keeps the first key and replaces it only on a
strictly larger count, so ties go to the earliest key; `max` on an empty
dict raises, embedded as `none`. -/
def mostBusyNext (avail : AvailableAgents) : Option Agent :=
  match avail with
  | [] => none
  | x :: xs =>
      some (xs.foldl (fun best y => if y.2.length > best.2.length then y else best) x).1

/-- Embeds `Moderated.get_next_agent` (lines 166-176): the moderator unless the
current actor is the moderator and a currently-available delegation target
was recorded (`None in available_agents` is false). The Python code compares
`current_agent is self.moderator` by object identity; identity is embedded
as the spec's identity comparison on agents. -/
def moderatedNext (moderator : Agent) (next_agent : Option Agent)
    (current : Agent) (avail : AvailableAgents) : Option Agent :=
  if current = moderator then
    match next_agent with
    | some a => if a ∈ keysOf avail then some a else some moderator
    | none => some moderator
  else
    some moderator

/-- Embeds `Single.should_end_session` (lines 92-93). -/
def singleShouldEndSession (st : TurnStrategyState) : Bool :=
  st.end_turn

/-! ## History (`llm/history.py`) -/

/-- Modelled from the spec: the stored `Message` type lives outside the three
source files; the history code consults only its `timestamp` (a `datetime`,
embedded as a natural) and carries the rest opaquely. -/
structure Message where
  timestamp : Nat
  content : String
deriving DecidableEq, Repr

/-- A Python exception escaping one of the embedded functions. -/
inductive PyError where
  | typeError
  | attributeError
  | validationError
deriving DecidableEq, Repr

/-- Embeds `InMemoryHistory.load_messages` (`history.py` lines 55-70): filter the
reversed store by the `before`/`after` bounds and by `i < (limit or
math.inf)` — `i` being the position in the reversed store, and a `limit` of
`None` *or `0`* (both falsy) meaning no cap — then reverse back. -/
def inMemoryLoadMessages (store : List Message) (limit : Option Nat)
    (before after : Option Nat) : List Message :=
  let keep : Nat × Message → Bool := fun p =>
    (match before with | none => true | some b => decide (p.2.timestamp < b)) &&
    (match after with | none => true | some x => decide (x < p.2.timestamp)) &&
    (match limit with | none => true | some l => if l = 0 then true else decide (p.1 < l))
  (((store.reverse.enum).filter keep).map Prod.snd).reverse

/-- The loop of `FileHistory.load_messages` (`history.py` lines 104-111),
scanning the store newest-first (the caller passes the reversed store).
After a message passes both bounds and is appended, the code evaluates
`if len(messages) >= limit or math.inf:` which parses as
`(len(messages) >= limit) or math.inf`: with `limit=None` the comparison
raises `TypeError`; with an integer `limit` the disjunct `math.inf` is
truthy, so the loop always breaks after its first append. -/
def fileLoadLoop (limit before after : Option Nat) :
    List Message → List Message → Except PyError (List Message)
  | [], acc => .ok acc.reverse
  | m :: rest, acc =>
      if (match before with | none => true | some b => decide (m.timestamp < b)) then
        if (match after with | none => true | some x => decide (x < m.timestamp)) then
          match limit with
          | none => .error .typeError
          | some _ => .ok (acc ++ [m]).reverse
        else fileLoadLoop limit before after rest acc
      else fileLoadLoop limit before after rest acc

/-- Embeds `FileHistory.load_messages` (`history.py` lines 91-113): a missing file
is the empty store. -/
def fileLoadMessages (store : List Message) (limit before after : Option Nat) :
    Except PyError (List Message) :=
  fileLoadLoop limit before after store.reverse []

/-- The loop of `History.load_messages_to_token_limit` (`history.py` lines
30-42), instantiated with the in-memory store and an explicit fuel bound:
while `messages == trim_messages(messages)` keep loading another batch of 50
bounded above by `messages[-1].timestamp` (the newest loaded timestamp) and
extending; on guard failure return the trimmed list. `trim` is litellm's
`trim_messages`, external to the source, kept as a parameter. `none` means
the fuel ran out with the loop still running. -/
def loadToTokenLimitLoop (trim : List Message → List Message)
    (store : List Message) : Nat → List Message → Option (List Message)
  | 0, _ => none
  | fuel + 1, messages =>
      let t := trim messages
      if messages = t then
        let before : Option Nat :=
          match messages.getLast? with
          | none => none
          | some m => some m.timestamp
        loadToTokenLimitLoop trim store fuel
          (messages ++ inMemoryLoadMessages store (some 50) before none)
      else some t

/-- Embeds `History.load_messages_to_token_limit` entry point: the loop starting
from the empty accumulator. -/
def loadMessagesToTokenLimit (trim : List Message → List Message)
    (store : List Message) (fuel : Nat) : Option (List Message) :=
  loadToTokenLimitLoop trim store fuel []

/-! ## Events (`events/events.py`) -/

/-- Modelled from the spec: the `Tool` interface is external; the core "only
needs name-based resolution and the result/error shape". -/
structure ToolDef where
  name : String
  description : String
deriving DecidableEq, Repr

/-- The `args` dict carried by a tool call, opaque to the event code. -/
abbrev Args := List (String × String)

/-- A finalized tool-call record (the `ToolCall`/`InvalidToolCall` dicts):
`.get("name")` may be absent, `["args"]` and `["id"]` are indexed directly. -/
structure ToolCallRec where
  name : Option String
  args : Args
  id : String
deriving DecidableEq, Repr

/-- A streamed tool-call fragment (an entry of `delta["tool_call_chunks"]`);
only `.get("index")` is consulted by the event code, the rest is carried. -/
structure ToolCallChunk where
  index : Option Nat
  argsFragment : String
deriving DecidableEq, Repr

/-- The finalized message body dict held by an `AgentMessage`. -/
structure MessageBody where
  content : String
  tool_calls : List ToolCallRec
  invalid_tool_calls : List ToolCallRec
  name : String
deriving DecidableEq, Repr

/-- The `AgentMessage` event (`events.py` lines 52-67). -/
structure AgentMessageE where
  agent : Agent
  message : MessageBody
deriving DecidableEq, Repr

/-- Embeds `AgentMessage` construction: the `_finalize` validator overwrites the
body's `name` with the authoring agent's name (`events.py` lines 64-67). -/
def mkAgentMessage (agent : Agent) (body : MessageBody) : AgentMessageE :=
  ⟨agent, { body with name := agent.name }⟩

/-- The `AgentToolCall` event (`events.py` lines 202-207). -/
structure AgentToolCall where
  agent : Agent
  tool_call : ToolCallRec
  tool : ToolDef
  args : Args
deriving DecidableEq, Repr

/-- Embeds `AgentMessage.to_tool_calls` (`events.py` lines 73-88): for each entry of
`tool_calls + invalid_tool_calls`, resolve the tool by name among `tools`;
`if tool:` appends only when the lookup succeeded, so an unresolved name is
skipped. -/
def toToolCalls (m : AgentMessageE) (tools : List ToolDef) :
    List AgentToolCall :=
  (m.message.tool_calls ++ m.message.invalid_tool_calls).filterMap fun tc =>
    match tools.find? (fun t => some t.name == tc.name) with
    | some t => some ⟨m.agent, tc, t, tc.args⟩
    | none => none

/-- The `AgentToolCallDelta` event (`events.py` lines 187-193); its `tool`
field is declared `tool: Tool`, not optional. -/
structure AgentToolCallDelta where
  agent : Agent
  delta : ToolCallChunk
  snapshot : ToolCallRec
  tool : ToolDef
  args : Args
deriving DecidableEq, Repr

/-- Embeds `AgentMessageDelta.to_tool_call_deltas` (`events.py` lines 137-161),
given the delta's `tool_call_chunks` and the snapshot's `tool_calls`. For
each fragment, `call_snapshot` is the snapshot entry at the fragment's
index, or `None` when the index is absent or out of range. The code then
evaluates `call_snapshot.get("name")` *before* the `if call_snapshot:`
guard, so a `None` snapshot raises `AttributeError`; and when the snapshot
exists the delta is appended with `tool=tool` even when the name lookup
failed, which pydantic rejects (`ValidationError`: `None` is not a `Tool`
for the non-optional field at `events.py` line 192). A present snapshot
entry is a non-empty dict, hence truthy under `if call_snapshot:`. -/
def toToolCallDeltas (agent : Agent) (snapCalls : List ToolCallRec)
    (tools : List ToolDef) :
    List ToolCallChunk → Except PyError (List AgentToolCallDelta)
  | [] => .ok []
  | cd :: rest =>
      let call_snapshot : Option ToolCallRec :=
        match cd.index with
        | some i => snapCalls[i]?
        | none => none
      match call_snapshot with
      | none => .error .attributeError
      | some c =>
          match tools.find? (fun t => some t.name == c.name) with
          | none => .error .validationError
          | some t =>
              match toToolCallDeltas agent snapCalls tools rest with
              | .error e => .error e
              | .ok ds => .ok (⟨agent, cd, c, t, c.args⟩ :: ds)

/-- Embeds `ORCHESTRATOR_PREFIX` (`events.py` line 21). -/
def ORCHESTRATOR_PREFIX : String :=
  "The following message is from the orchestrator."

/-- Python's f-string rendering of an optional string: `None` prints as the
text `None`. -/
def pyOptStr : Option String → String
  | some s => s
  | none => "None"

/-- A provider-ready chat message produced by transcript compilation:
`AIMessage`, `HumanMessage` or `ToolMessage`. -/
inductive ChatMessage where
  | ai (body : MessageBody)
  | human (content : String) (name : Option String)
  | toolMsg (content : String) (tool_call_id : String) (name : String)
deriving DecidableEq, Repr

/-- Embeds `OrchestratorMessage.to_messages` (`events.py` lines 34-41): one
`HumanMessage` whose content is `f"({self.prefix})\n\n{self.content}"`. -/
def orchestratorToMessages (pfx : Option String) (content : String)
    (name : Option String) : List ChatMessage :=
  [.human ("(" ++ pyOptStr pfx ++ ")" ++ "\n\n" ++ content) name]

/-- Embeds `AgentMessage.to_messages` (`events.py` lines 96-106): authorship is
decided by comparing the author's *name* with the viewer's name; same name
gives the stored `ai_message`, a different name gives an orchestrator
narration when the content is truthy (non-empty) and nothing otherwise. -/
def agentMessageToMessages (m : AgentMessageE) (viewer : Agent) :
    List ChatMessage :=
  if m.agent.name = viewer.name then
    [.ai m.message]
  else if m.message.content ≠ "" then
    orchestratorToMessages
      (some ("The following message was posted by Agent \"" ++ m.agent.name ++
             "\" with ID " ++ m.agent.id))
      m.message.content (some m.agent.name)
  else []

/-- The result payload of a tool invocation (external `ToolResult` shape:
text plus error flag). -/
structure ToolResultPayload where
  str_result : String
  is_error : Bool
deriving DecidableEq, Repr

/-- The `ToolResult` event (`events.py` lines 210-214). -/
structure ToolResultE where
  agent : Agent
  tool_call : ToolCallRec
  tool_result : ToolResultPayload
deriving DecidableEq, Repr

/-- Modelled from the spec: the f-string interpolation `{self.tool_call}`
renders the Python dict; the exact serialization is external to the event
code and not observed by any claim, so any fixed rendering serves. -/
def renderToolCall (tc : ToolCallRec) : String :=
  "ToolCall(name=" ++ pyOptStr tc.name ++ ", id=" ++ tc.id ++ ")"

/-- Embeds `ToolResult.to_messages` (`events.py` lines 216-232): again decided by
name equality; the viewer's own result becomes one `ToolMessage`, anyone
else's becomes an orchestrator narration of the call and its result. -/
def toolResultToMessages (tr : ToolResultE) (viewer : Agent) :
    List ChatMessage :=
  if tr.agent.name = viewer.name then
    [.toolMsg tr.tool_result.str_result tr.tool_call.id tr.agent.name]
  else
    orchestratorToMessages
      (some ("Agent \"" ++ tr.agent.name ++ "\" with ID " ++ tr.agent.id ++
             " made a tool call: " ++ renderToolCall tr.tool_call ++
             ". The tool" ++
             (if tr.tool_result.is_error then " failed and" else " ") ++
             " produced this result:"))
      tr.tool_result.str_result (some tr.agent.name)

/-! ## Concrete fixtures used by witnesses and counterexamples -/

/-- A sample agent. -/
def agentA : Agent := ⟨"a1", "Alice"⟩

/-- A second sample agent. -/
def agentB : Agent := ⟨"a2", "Bob"⟩

/-- A third sample agent sharing `agentA`'s name but not its id. -/
def agentC : Agent := ⟨"a3", "Alice"⟩

/-- A one-agent availability mapping. -/
def availB : AvailableAgents := [(agentB, [])]

/-- A two-agent availability mapping. -/
def availAB : AvailableAgents := [(agentA, []), (agentB, [⟨0⟩])]

/-- An initial turn-strategy state. -/
def st0 : TurnStrategyState := {}

/-! ## Claims about the delegate tool -/

/-- C1: `delegate_to_agent` with fewer than two available agents produces the
`Unsupported` outcome; with at least two agents and an `agent_id` matching no
available agent it fails with `AgentNotFound`; with a matching `agent_id` it
sets `end_turn := true` and `next_agent` to the resolved agent and returns a
confirmation string naming the target. -/
theorem delegate_tool_outcomes (st : TurnStrategyState)
    (avail : AvailableAgents) (aid : String) :
    (avail.length < 2 →
      delegateToAgent st avail aid =
        (.unsupported "Cannot delegate as there are no other available agents.",
         st)) ∧
    (2 ≤ avail.length → (∀ a ∈ keysOf avail, a.id ≠ aid) →
      delegateToAgent st avail aid =
        (.agentNotFound ("Agent with ID " ++ aid ++ " not found or not available."),
         st)) ∧
    (2 ≤ avail.length → (∃ a ∈ keysOf avail, a.id = aid) →
      ∃ a, a ∈ keysOf avail ∧ a.id = aid ∧
        delegateToAgent st avail aid =
          (.delegated a ("Delegated to agent " ++ a.name ++ " with ID " ++ aid),
           { st with end_turn := true, next_agent := some a })) := by
  refine ⟨fun h1 => ?_, fun h2 hnone => ?_, fun h2 hsome => ?_⟩
  · have hle : avail.length ≤ 1 := Nat.lt_succ_iff.mp h1
    simp [delegateToAgent, hle]
  · have hle : ¬ avail.length ≤ 1 := by omega
    have hfind : (keysOf avail).find? (fun a => a.id == aid) = none := by
      rw [List.find?_eq_none]
      intro a ha
      simpa using hnone a ha
    simp [delegateToAgent, hle, hfind]
  · have hle : ¬ avail.length ≤ 1 := by omega
    have hiss : ((keysOf avail).find? (fun a => a.id == aid)).isSome := by
      rw [List.find?_isSome]
      obtain ⟨a, ha, hid⟩ := hsome
      exact ⟨a, ha, by simpa using hid⟩
    obtain ⟨a, hfind⟩ := Option.isSome_iff_exists.mp hiss
    refine ⟨a, List.mem_of_find?_eq_some hfind, by simpa using List.find?_some hfind, ?_⟩
    simp [delegateToAgent, hle, hfind]

/-- Witness for C1 at concrete inputs: one available agent for the
`Unsupported` case, two for the other two cases. -/
theorem delegate_tool_outcomes_witness :
    (delegateToAgent st0 availB "a1" =
      (.unsupported "Cannot delegate as there are no other available agents.",
       st0)) ∧
    (delegateToAgent st0 availAB "zzz" =
      (.agentNotFound "Agent with ID zzz not found or not available.", st0)) ∧
    (∃ a, a ∈ keysOf availAB ∧ a.id = "a2" ∧
      delegateToAgent st0 availAB "a2" =
        (.delegated a ("Delegated to agent " ++ a.name ++ " with ID " ++ "a2"),
         { st0 with end_turn := true, next_agent := some a })) :=
  ⟨(delegate_tool_outcomes st0 availB "a1").1 (by decide),
   (delegate_tool_outcomes st0 availAB "zzz").2.1 (by decide) (by decide),
   (delegate_tool_outcomes st0 availAB "a2").2.2 (by decide) ⟨agentB, by decide, rfl⟩⟩

/-- C10: a failing `delegate_to_agent` invocation (either failure) leaves the
policy state exactly as it was; the state changes only on the success
outcome, where `end_turn` and `next_agent` are set together. -/
theorem delegate_failure_preserves_state (st : TurnStrategyState)
    (avail : AvailableAgents) (aid : String) :
    (∀ s, (delegateToAgent st avail aid).1 = .unsupported s →
      (delegateToAgent st avail aid).2 = st) ∧
    (∀ s, (delegateToAgent st avail aid).1 = .agentNotFound s →
      (delegateToAgent st avail aid).2 = st) ∧
    (∀ a s, (delegateToAgent st avail aid).1 = .delegated a s →
      (delegateToAgent st avail aid).2 =
        { st with end_turn := true, next_agent := some a }) := by
  unfold delegateToAgent
  by_cases hle : avail.length ≤ 1
  · simp [hle]
  · cases hfind : (keysOf avail).find? (fun a => a.id == aid) with
    | none => simp [hle, hfind]
    | some a =>
        refine ⟨?_, ?_, ?_⟩ <;> intro b
        · simp [hle, hfind]
        · simp [hle, hfind]
        · intro s h
          simp only [hle, if_false, hfind] at h ⊢
          cases h
          rfl

/-- Witness for C10: the one-agent failure keeps the state, and a successful
delegation in the two-agent mapping sets both fields together. -/
theorem delegate_failure_preserves_state_witness :
    ((delegateToAgent st0 availB "a1").2 = st0) ∧
    ((delegateToAgent st0 availAB "a2").2 =
      { st0 with end_turn := true, next_agent := some agentB }) :=
  ⟨(delegate_failure_preserves_state st0 availB "a1").1
      "Cannot delegate as there are no other available agents." rfl,
   (delegate_failure_preserves_state st0 availAB "a2").2.2 agentB
      ("Delegated to agent " ++ agentB.name ++ " with ID " ++ "a2") rfl⟩

/-! ## Claims about next-agent selection -/

/-- A fold whose combining function always returns one of its two arguments
stays inside the initial value and the list. -/
theorem foldl_pick_mem {α : Type} (f : α → α → α)
    (hf : ∀ a b, f a b = a ∨ f a b = b) :
    ∀ (xs : List α) (x : α), xs.foldl f x ∈ x :: xs
  | [], _ => by simp
  | y :: ys, x => by
      have h := foldl_pick_mem f hf ys (f x y)
      simp only [List.foldl_cons]
      rcases hf x y with h1 | h1 <;> rw [h1] at h ⊢ <;>
        rcases List.mem_cons.mp h with h' | h' <;> simp [h']

/-- C5 counterexample: `Single.get_next_agent` returns the current agent even
when it is not a key of the available-agents mapping, so the result need not
be a member of the mapping. -/
theorem get_next_agent_member_counterexample :
    singleNext agentA availB = some agentA ∧ agentA ∉ keysOf availB :=
  ⟨rfl, by decide⟩

/-- C5 amended: for every non-empty mapping, `Popcorn`, `Random`,
`RoundRobin` and `MostBusy` return a key of the mapping for every current
agent; `Single` does so provided the current agent is a key, and `Moderated`
provided the moderator is a key. -/
theorem get_next_agent_membership (avail : AvailableAgents)
    (current moderator : Agent) (next_agent : Option Agent) (r : Nat)
    (hne : avail ≠ []) :
    (∃ a, popcornNext next_agent current avail = some a ∧ a ∈ keysOf avail) ∧
    (∃ a, randomNext r current avail = some a ∧ a ∈ keysOf avail) ∧
    (∃ a, roundRobinNext current avail = some a ∧ a ∈ keysOf avail) ∧
    (∃ a, mostBusyNext avail = some a ∧ a ∈ keysOf avail) ∧
    (current ∈ keysOf avail →
      ∃ a, singleNext current avail = some a ∧ a ∈ keysOf avail) ∧
    (moderator ∈ keysOf avail →
      ∃ a, moderatedNext moderator next_agent current avail = some a ∧
        a ∈ keysOf avail) := by
  have hk : keysOf avail ≠ [] := by
    intro h
    exact hne (by simpa [keysOf] using h)
  have hlen : 0 < (keysOf avail).length := List.length_pos.mpr hk
  refine ⟨?_, ?_, ?_, ?_, ?_, ?_⟩
  · cases next_agent with
    | none =>
        exact ⟨_, by simp [popcornNext, List.head?_eq_head hk], List.head_mem hk⟩
    | some a =>
        by_cases hmem : a ∈ keysOf avail
        · exact ⟨a, by simp [popcornNext, hmem], hmem⟩
        · exact ⟨_, by simp [popcornNext, hmem, List.head?_eq_head hk],
            List.head_mem hk⟩
  · have h : r % (keysOf avail).length < (keysOf avail).length :=
      Nat.mod_lt _ hlen
    exact ⟨_, by simp [randomNext, List.getElem?_eq_getElem h],
      List.getElem_mem h⟩
  · by_cases hc : current ∈ keysOf avail
    · have h : ((keysOf avail).indexOf current + 1) % (keysOf avail).length <
          (keysOf avail).length := Nat.mod_lt _ hlen
      exact ⟨_, by simp [roundRobinNext, hc, List.getElem?_eq_getElem h],
        List.getElem_mem h⟩
    · exact ⟨_, by simp [roundRobinNext, hc, List.getElem?_eq_getElem hlen],
        List.getElem_mem hlen⟩
  · cases avail with
    | nil => exact absurd rfl hne
    | cons x xs =>
        have hmem := foldl_pick_mem
          (fun best y => if y.2.length > best.2.length then y else best)
          (fun a b => by
            by_cases h : b.2.length > a.2.length <;> simp [h]) xs x
        exact ⟨_, rfl, List.mem_map_of_mem Prod.fst hmem⟩
  · intro hc
    exact ⟨current, rfl, hc⟩
  · intro hmod
    by_cases hc : current = moderator
    · cases next_agent with
      | some a =>
          by_cases ha : a ∈ keysOf avail
          · exact ⟨a, by simp [moderatedNext, hc, ha], ha⟩
          · exact ⟨moderator, by simp [moderatedNext, hc, ha], hmod⟩
      | none => exact ⟨moderator, by simp [moderatedNext, hc], hmod⟩
    · exact ⟨moderator, by simp [moderatedNext, hc], hmod⟩

/-- Witness for the amended C5 at the two-agent mapping. -/
theorem get_next_agent_membership_witness :
    availAB ≠ [] ∧
    ((∃ a, popcornNext none agentA availAB = some a ∧ a ∈ keysOf availAB) ∧
     (∃ a, randomNext 3 agentA availAB = some a ∧ a ∈ keysOf availAB) ∧
     (∃ a, roundRobinNext agentA availAB = some a ∧ a ∈ keysOf availAB) ∧
     (∃ a, mostBusyNext availAB = some a ∧ a ∈ keysOf availAB) ∧
     (agentA ∈ keysOf availAB →
       ∃ a, singleNext agentA availAB = some a ∧ a ∈ keysOf availAB) ∧
     (agentA ∈ keysOf availAB →
       ∃ a, moderatedNext agentA none agentA availAB = some a ∧
         a ∈ keysOf availAB)) :=
  ⟨by decide, get_next_agent_membership availAB agentA agentA none 3 (by decide)⟩

/-- C8: for a non-empty mapping with (dict-)distinct keys,
`RoundRobin.get_next_agent` returns the key immediately after the current
agent's position, wrapping past the end, and the first key when the current
agent is not in the mapping. -/
theorem roundrobin_next_spec (avail : AvailableAgents) (current : Agent)
    (hnd : (keysOf avail).Nodup) (h0 : 0 < (keysOf avail).length) :
    (current ∉ keysOf avail →
      roundRobinNext current avail = some ((keysOf avail).get ⟨0, h0⟩)) ∧
    (∀ i (h : i < (keysOf avail).length), (keysOf avail).get ⟨i, h⟩ = current →
      roundRobinNext current avail =
        some ((keysOf avail).get
          ⟨(i + 1) % (keysOf avail).length, Nat.mod_lt _ h0⟩)) := by
  constructor
  · intro hc
    simp [roundRobinNext, hc, List.getElem?_eq_getElem h0]
  · intro i h hcur
    have hmem : current ∈ keysOf avail := by
      rw [← hcur]
      exact List.get_mem _ _ _
    have hidx : (keysOf avail).indexOf current = i := by
      rw [← hcur]
      exact List.get_indexOf hnd ⟨i, h⟩
    simp [roundRobinNext, hmem, hidx,
      List.getElem?_eq_getElem (Nat.mod_lt (i + 1) h0)]

/-- Witness for C8: in the two-agent mapping, the agent after the first is
the second, and an absent agent restarts at the first. -/
theorem roundrobin_next_spec_witness :
    (keysOf availAB).Nodup ∧
    roundRobinNext agentA availAB =
      some ((keysOf availAB).get
        ⟨(0 + 1) % (keysOf availAB).length, by decide⟩) ∧
    roundRobinNext agentC availAB = some ((keysOf availAB).get ⟨0, by decide⟩) :=
  ⟨by decide,
   (roundrobin_next_spec availAB agentA (by decide) (by decide)).2 0
     (by decide) (by decide),
   (roundrobin_next_spec availAB agentC (by decide) (by decide)).1 (by decide)⟩

/-! ## Claims about history windowing -/

/-- C4 (code bug): for a thread with no stored messages — whose finitely many
messages trivially fit any token budget — and any trimming function that
leaves the empty list unchanged (litellm's does), the
`load_messages_to_token_limit` loop never exits: the guard
`messages == trim_messages(messages)` stays true and every batch is empty,
so no amount of fuel reaches a result. -/
theorem load_to_token_limit_diverges (trim : List Message → List Message)
    (htrim : trim [] = []) (fuel : Nat) :
    loadMessagesToTokenLimit trim [] fuel = none := by
  suffices h : ∀ n, loadToTokenLimitLoop trim [] n [] = none from h fuel
  intro n
  induction n with
  | zero => rfl
  | succ n ih =>
      simp only [loadToTokenLimitLoop, htrim, if_pos]
      simpa [inMemoryLoadMessages] using ih

/-- Witness for C4: with the identity trimming function and fuel 100 the
loop still yields nothing. -/
theorem load_to_token_limit_diverges_witness :
    loadMessagesToTokenLimit (fun l => l) [] 100 = none :=
  load_to_token_limit_diverges (fun l => l) rfl 100

/-- C6 (code bug): `FileHistory.load_messages` evaluated at concrete inputs.
With the default `limit=None` and a single stored message it raises
`TypeError` (`len(messages) >= limit or math.inf` parses as
`(len(messages) >= limit) or math.inf`) instead of returning the message
list; with `limit=50` and two stored messages it stops after the first
append and returns only the newest message. `InMemoryHistory.load_messages`
with `limit=0` (falsy, so `limit or math.inf` drops the cap) returns both
stored messages, exceeding the given limit. -/
theorem file_load_messages_failing_inputs :
    fileLoadMessages [⟨0, "m0"⟩] none none none = .error .typeError ∧
    fileLoadMessages [⟨0, "m0"⟩, ⟨1, "m1"⟩] (some 50) none none =
      .ok [⟨1, "m1"⟩] ∧
    inMemoryLoadMessages [⟨0, "m0"⟩, ⟨1, "m1"⟩] (some 0) none none =
      [⟨0, "m0"⟩, ⟨1, "m1"⟩] :=
  ⟨rfl, rfl, rfl⟩

/-! ## Claims about event derivation and transcript compilation -/

/-- C2 (code bug): a tool-call fragment whose index has no corresponding
snapshot entry is not dropped silently — `call_snapshot.get("name")` runs
before the `if call_snapshot:` guard, so the conversion raises
`AttributeError`, both for an out-of-range index and for a fragment with no
index at all. -/
theorem tool_call_delta_missing_snapshot_raises :
    toToolCallDeltas agentA [] [] [⟨some 0, "frag"⟩] = .error .attributeError ∧
    toToolCallDeltas agentA [⟨some "search", [], "call1"⟩] []
      [⟨none, "frag"⟩] = .error .attributeError :=
  ⟨rfl, rfl⟩

/-- C3 (code bug): when no supplied tool carries the recorded name,
`AgentMessage.to_tool_calls` does silently omit the call (second conjunct),
but `AgentMessageDelta.to_tool_call_deltas` does not omit the fragment: the
guard checks `call_snapshot`, not `tool`, so the delta is constructed with
`tool=None` and pydantic rejects it (first conjunct). -/
theorem tool_call_delta_unresolved_tool_raises :
    toToolCallDeltas agentA [⟨some "search", [], "call1"⟩] []
      [⟨some 0, "frag"⟩] = .error .validationError ∧
    toToolCalls
      (mkAgentMessage agentA ⟨"", [⟨some "search", [], "call1"⟩], [], ""⟩)
      [] = [] :=
  ⟨rfl, rfl⟩

/-- C7 counterexample: two distinct agents share the name `Alice`; a message
authored by the first with empty text content, viewed by the second, does
not compile to the empty list (the claim's "authored by a different agent"
case) but to the author's own assistant message. -/
theorem agent_message_view_counterexample :
    agentA ≠ agentC ∧
    agentMessageToMessages (mkAgentMessage agentA ⟨"", [], [], ""⟩) agentC ≠
      [] :=
  ⟨by decide, by decide⟩

/-- C7 amended: authorship is decided by comparing the author's *name* with
the viewer's name. With equal names `to_messages` is exactly one
assistant-role message carrying the recorded body (whose `name` the
constructor set to the author's name); with different names and empty text
content it is the empty list; with different names and non-empty content it
is exactly one user-role message whose body names the authoring agent and
its id, followed by the content. -/
theorem agent_message_to_messages_cases (a viewer : Agent)
    (body : MessageBody) :
    (a.name = viewer.name →
      agentMessageToMessages (mkAgentMessage a body) viewer =
        [.ai { body with name := a.name }]) ∧
    (a.name ≠ viewer.name → body.content = "" →
      agentMessageToMessages (mkAgentMessage a body) viewer = []) ∧
    (a.name ≠ viewer.name → body.content ≠ "" →
      agentMessageToMessages (mkAgentMessage a body) viewer =
        [.human ("(" ++
            ("The following message was posted by Agent \"" ++ a.name ++
             "\" with ID " ++ a.id) ++ ")" ++ "\n\n" ++ body.content)
          (some a.name)]) := by
  refine ⟨fun hname => ?_, fun hname hc => ?_, fun hname hc => ?_⟩
  · simp [agentMessageToMessages, mkAgentMessage, hname]
  · simp [agentMessageToMessages, mkAgentMessage, hname, hc]
  · simp [agentMessageToMessages, mkAgentMessage, orchestratorToMessages,
      pyOptStr, hname, hc]

/-- Witness for the amended C7: the three cases at concrete agents and
bodies. -/
theorem agent_message_to_messages_cases_witness :
    (agentMessageToMessages (mkAgentMessage agentA ⟨"hi", [], [], ""⟩) agentC =
      [.ai { content := "hi", tool_calls := [], invalid_tool_calls := [],
             name := agentA.name }]) ∧
    (agentMessageToMessages (mkAgentMessage agentA ⟨"", [], [], ""⟩) agentB =
      []) ∧
    (agentMessageToMessages (mkAgentMessage agentA ⟨"hi", [], [], ""⟩) agentB =
      [.human ("(" ++
          ("The following message was posted by Agent \"" ++ agentA.name ++
           "\" with ID " ++ agentA.id) ++ ")" ++ "\n\n" ++ "hi")
        (some agentA.name)]) :=
  ⟨(agent_message_to_messages_cases agentA agentC ⟨"hi", [], [], ""⟩).1 rfl,
   (agent_message_to_messages_cases agentA agentB ⟨"", [], [], ""⟩).2.1
     (by decide) rfl,
   (agent_message_to_messages_cases agentA agentB ⟨"hi", [], [], ""⟩).2.2
     (by decide) (by decide)⟩

/-- C9: both `AgentMessage.to_messages` and `ToolResult.to_messages` decide
viewership by name equality alone, so for any two agents sharing a name —
whatever their distinct ids — each one's messages and tool results compile
as the viewer's own assistant-role / tool-role messages in the other's
transcript. -/
theorem name_collision_compiles_as_own (a b : Agent) (body : MessageBody)
    (tc : ToolCallRec) (pl : ToolResultPayload)
    (hname : a.name = b.name) (_hid : a.id ≠ b.id) :
    agentMessageToMessages (mkAgentMessage a body) b =
      [.ai { body with name := a.name }] ∧
    toolResultToMessages ⟨a, tc, pl⟩ b =
      [.toolMsg pl.str_result tc.id a.name] := by
  constructor
  · simp [agentMessageToMessages, mkAgentMessage, hname]
  · simp [toolResultToMessages, hname]

/-- Witness for C9: `agentA` and `agentC` share the name `Alice` with
different ids. -/
theorem name_collision_compiles_as_own_witness :
    agentMessageToMessages (mkAgentMessage agentA ⟨"", [], [], ""⟩) agentC =
      [.ai { content := "", tool_calls := [], invalid_tool_calls := [],
             name := agentA.name }] ∧
    toolResultToMessages ⟨agentA, ⟨some "search", [], "call1"⟩, ⟨"ok", false⟩⟩
      agentC = [.toolMsg "ok" "call1" agentA.name] :=
  name_collision_compiles_as_own agentA agentC ⟨"", [], [], ""⟩
    ⟨some "search", [], "call1"⟩ ⟨"ok", false⟩ rfl (by decide)

end ControlFlow
